import Mathlib

/-
  Verification of the ssh-rs client core against its specification.

  The repository snapshot contains src/lib.rs, src/config/mod.rs and
  src/channel/backend/channel_exec.rs.  These are embedded directly.
  Components the spec describes whose source files are not in the
  snapshot (packet layer, channel multiplexer, wire codec, session
  teardown, logging facade) are modelled from the spec text; each such
  definition carries a doc comment starting with Modelled from the spec.
-/

namespace SshRs

/-- Modelled from the spec: channel state, section 3 of the spec
(state in Pending, Open, EofSent, EofRecv, Closed); src/channel.rs is
not in the snapshot. -/
inductive ChannelState
  | Pending
  | Open
  | EofSent
  | EofRecv
  | Closed
deriving DecidableEq, Repr

/-- Modelled from the spec: a channel record, section 3 of the spec
(local id, remote id, local window, remote window, maximum packet size
each direction, and a state); src/channel.rs is not in the snapshot. -/
structure Channel where
  local_id : Nat
  remote_id : Nat
  local_window : Nat
  remote_window : Nat
  local_max_packet : Nat
  remote_max_packet : Nat
  state : ChannelState
deriving DecidableEq, Repr

/-- From src/channel/backend/channel_exec.rs: the tuple struct
ChannelExec(Channel, Vec of u8).  Field channel is the first tuple
component (the wrapped Channel), field buf the second (the byte
buffer). -/
structure ChannelExec where
  channel : Channel
  buf : List Nat
deriving DecidableEq, Repr

/-- From src/channel/backend/channel_exec.rs: the Deref impl returns a
reference to the first tuple field. -/
def ChannelExec.deref (e : ChannelExec) : Channel :=
  e.channel

/-- From src/channel/backend/channel_exec.rs: the DerefMut impl returns
a mutable reference to the first tuple field. -/
def ChannelExec.deref_mut (e : ChannelExec) : Channel :=
  e.channel

/-- Modelled from the spec: user credentials (section 3, the user
credentials held by the session); src/user_info.rs is not in the
snapshot. -/
structure UserInfo where
  username : String
  password : String
deriving DecidableEq, Repr

/-- Modelled from the spec: the transport handle owned by the session
(section 5, the transport is owned by the session); src/client.rs is
not in the snapshot.  A bare socket identifier suffices for the claims
about the session facade. -/
structure Client where
  sock : Nat
deriving DecidableEq, Repr

/-- From src/lib.rs: the Session struct as constructed by
ssh::create_session, with fields timeout_sec, user_info, client and
client_channel_no. -/
structure Session where
  timeout_sec : Nat
  user_info : Option UserInfo
  client : Option Client
  client_channel_no : Nat
deriving DecidableEq, Repr

namespace ssh

/-- From src/lib.rs, ssh::create_session: builds a Session with
timeout_sec 30, no user_info, no client and channel counter 0. -/
def create_session : Session :=
  { timeout_sec := 30
    user_info := none
    client := none
    client_channel_no := 0 }

end ssh

/-- Modelled from the spec: the state of the logging facade
(src/slog.rs is not in the snapshot).  The only observable fact the
claims need is whether the global logger has been installed. -/
structure LogState where
  logger_installed : Bool
deriving DecidableEq, Repr

/-- Modelled from the spec: Slog::default() installs the global
logger (src/slog.rs is not in the snapshot). -/
def Slog.install (_st : LogState) : LogState :=
  { logger_installed := true }

namespace ssh

/-- From src/lib.rs, ssh::is_enable_log: if b then Slog::default()
else nothing.  Embedded as a state transformer on the logging
state. -/
def is_enable_log (b : Bool) (st : LogState) : LogState :=
  if b then Slog.install st else st

end ssh

/-- Modelled from the spec: AlgList, section 3 of the spec (name-lists
in canonical SSH order: kex, host-key, encryption both directions, mac
both directions, compression both directions); src/config/algorithm.rs
is not in the snapshot.  Default (derived from the Rust Default impl
named by src/config/mod.rs) is the empty list everywhere;
client_default is populated with the algorithms of section 4.2. -/
structure AlgList where
  kex : List String
  host_key : List String
  enc_c2s : List String
  enc_s2c : List String
  mac_c2s : List String
  mac_s2c : List String
  comp_c2s : List String
  comp_s2c : List String
deriving DecidableEq, Repr

/-- Modelled from the spec: AlgList::default(), the empty algorithm
list referred to by the comment in src/config/mod.rs (use an empty
client algorithm list). -/
def AlgList.empty_default : AlgList :=
  { kex := []
    host_key := []
    enc_c2s := []
    enc_s2c := []
    mac_c2s := []
    mac_s2c := []
    comp_c2s := []
    comp_s2c := [] }

/-- Modelled from the spec: AlgList::client_default(), the populated
client preference lists of section 4.2 of the spec. -/
def AlgList.client_default : AlgList :=
  { kex := ["curve25519-sha256", "diffie-hellman-group14-sha256",
            "diffie-hellman-group14-sha1"]
    host_key := ["ssh-rsa"]
    enc_c2s := ["aes128-ctr", "aes192-ctr", "aes256-ctr",
                "chacha20-poly1305@openssh.com"]
    enc_s2c := ["aes128-ctr", "aes192-ctr", "aes256-ctr",
                "chacha20-poly1305@openssh.com"]
    mac_c2s := ["hmac-sha2-256", "hmac-sha2-512", "hmac-sha1"]
    mac_s2c := ["hmac-sha2-256", "hmac-sha2-512", "hmac-sha1"]
    comp_c2s := ["none"]
    comp_s2c := ["none"] }

/-- Modelled from the spec: AuthInfo with its Default impl
(src/config/auth.rs is not in the snapshot).  The claims only compare
defaults for equality, so the record keeps the credential fields of
section 3 with empty defaults. -/
structure AuthInfo where
  username : String
  password : String
deriving DecidableEq, Repr

/-- Modelled from the spec: AuthInfo::default(). -/
def AuthInfo.empty_default : AuthInfo :=
  { username := "", password := "" }

/-- Modelled from the spec: SshVersion with its Default impl
(src/config/version.rs is not in the snapshot); section 6 gives the
banner format SSH-2.0 followed by the product name. -/
structure SshVersion where
  client_ver : String
  server_ver : String
deriving DecidableEq, Repr

/-- Modelled from the spec: SshVersion::default(). -/
def SshVersion.empty_default : SshVersion :=
  { client_ver := "", server_ver := "" }

/-- From src/config/mod.rs: the Config struct with fields ver, auth,
algs. -/
structure Config where
  ver : SshVersion
  auth : AuthInfo
  algs : AlgList
deriving DecidableEq, Repr

/-- From src/config/mod.rs: the Default impl for Config, using
AlgList::client_default(), AuthInfo::default() and
SshVersion::default(). -/
def Config.rust_default : Config :=
  { algs := AlgList.client_default
    auth := AuthInfo.empty_default
    ver := SshVersion.empty_default }

/-- From src/config/mod.rs: Config::disable_default(), which uses an
empty client algorithm list and otherwise the same defaults. -/
def Config.disable_default : Config :=
  { algs := AlgList.empty_default
    auth := AuthInfo.empty_default
    ver := SshVersion.empty_default }

/-- Modelled from the spec: the error taxonomy of section 7
(src/error.rs is not in the snapshot).  Only the kinds the claims
mention are needed. -/
inductive SshErrorKind
  | IoError
  | Timeout
  | MalformedWire
  | MacMismatch
  | ProtocolViolation
  | NegotiationFailed
  | AuthRejected
  | ChannelRejected
  | OversizePacket
  | SessionDead
deriving DecidableEq, Repr

/-- Modelled from the spec: an outbound transport message as far as
the teardown claims observe it (section 4.7, close sends DISCONNECT
with code 11). -/
inductive WireMsg
  | disconnect (code : Nat)
deriving DecidableEq, Repr

/-- Modelled from the spec: Session::close of section 4.7 together
with the SessionDead rule of sections 5 and 8 (src/session.rs is not
in the snapshot).  The first close sends DISCONNECT(code 11) and
closes the transport by dropping the client; an operation on a session
whose transport is gone fails fast with SessionDead. -/
def Session.close (s : Session) : Except SshErrorKind (Session × WireMsg) :=
  match s.client with
  | none => .error .SessionDead
  | some _ => .ok ({ s with client := none }, .disconnect 11)

/-- Modelled from the spec: the packet-layer counters and keys of
section 3 (src/client.rs and the packet module are not in the
snapshot).  Send and receive sequence numbers and the current keys for
each direction. -/
structure SeqState where
  send_seq : Nat
  recv_seq : Nat
  send_key : Nat
  recv_key : Nat
deriving DecidableEq, Repr

/-- Modelled from the spec: the events the packet layer reacts to, as
far as the sequence counters observe them: sending a packet, receiving
a packet, and the NEWKEYS key swap of a rekey (section 4.4). -/
inductive PacketEvent
  | send_packet
  | recv_packet
  | newkeys_swap (sk rk : Nat)
deriving DecidableEq, Repr

/-- Modelled from the spec: the effect of one packet event on the
packet-layer state (sections 3 and 4.3): each packet sent or received
increments the matching sequence number by one modulo 2 to the 32, and
a NEWKEYS swap replaces the keys without touching either counter. -/
def seq_step (s : SeqState) : PacketEvent → SeqState
  | .send_packet => { s with send_seq := (s.send_seq + 1) % 2 ^ 32 }
  | .recv_packet => { s with recv_seq := (s.recv_seq + 1) % 2 ^ 32 }
  | .newkeys_swap sk rk => { s with send_key := sk, recv_key := rk }

/-- Modelled from the spec: running the packet layer over a trace of
events. -/
def seq_run (s : SeqState) (tr : List PacketEvent) : SeqState :=
  tr.foldl seq_step s

/-- Modelled from the spec: the initial packet-layer state of a fresh
session, both counters at zero. -/
def seq_init (k1 k2 : Nat) : SeqState :=
  { send_seq := 0, recv_seq := 0, send_key := k1, recv_key := k2 }

/-- Number of send events in a trace. -/
def count_sends : List PacketEvent → Nat
  | [] => 0
  | .send_packet :: tr => count_sends tr + 1
  | .recv_packet :: tr => count_sends tr
  | .newkeys_swap _ _ :: tr => count_sends tr

/-- Number of receive events in a trace. -/
def count_recvs : List PacketEvent → Nat
  | [] => 0
  | .send_packet :: tr => count_recvs tr
  | .recv_packet :: tr => count_recvs tr + 1
  | .newkeys_swap _ _ :: tr => count_recvs tr

/-- Modelled from the spec: the flow-control state of one open channel
in the multiplexer (sections 3 and 4.6; src/channel.rs and
src/window_size.rs are not in the snapshot): the remote window in
bytes and the queue of withheld payloads. -/
structure FlowChan where
  remote_window : Nat
  pending : List (List Nat)
deriving DecidableEq, Repr

/-- Modelled from the spec: events at one channel of the multiplexer:
the application writes a payload, or a CHANNEL_WINDOW_ADJUST with a
byte credit arrives (section 4.6). -/
inductive FlowEvent
  | write_data (d : List Nat)
  | window_adjust (k : Nat)
deriving DecidableEq, Repr

/-- Modelled from the spec: transmit queued payloads in order while
the window covers them; stop at the first payload larger than the
remaining window (the multiplexer stalls and awaits WINDOW_ADJUST,
section 4.6).  Returns the remaining window, the remaining queue, and
the emitted CHANNEL_DATA messages, each paired with the window value
at the moment it was transmitted. -/
def flow_flush : Nat → List (List Nat) → Nat × List (List Nat) × List (Nat × List Nat)
  | w, [] => (w, [], [])
  | w, d :: rest =>
      if d.length ≤ w then
        let r := flow_flush (w - d.length) rest
        (r.1, r.2.1, (w, d) :: r.2.2)
      else (w, d :: rest, [])

/-- Modelled from the spec: one multiplexer step at a channel.  A
write enqueues the payload and flushes; a WINDOW_ADJUST adds the
credit to the remote window and flushes the queue (section 4.6). -/
def flow_step (c : FlowChan) : FlowEvent → FlowChan × List (Nat × List Nat)
  | .write_data d =>
      let r := flow_flush c.remote_window (c.pending ++ [d])
      ({ remote_window := r.1, pending := r.2.1 }, r.2.2)
  | .window_adjust k =>
      let r := flow_flush (c.remote_window + k) c.pending
      ({ remote_window := r.1, pending := r.2.1 }, r.2.2)

/-- Modelled from the spec: running the multiplexer at a channel over
a trace of events, accumulating every transmitted CHANNEL_DATA in
order. -/
def flow_run (c : FlowChan) : List FlowEvent → FlowChan × List (Nat × List Nat)
  | [] => (c, [])
  | e :: tr =>
      let r := flow_step c e
      let rest := flow_run r.1 tr
      (rest.1, r.2 ++ rest.2)

/-- Total byte credit granted by the WINDOW_ADJUST events of a
trace. -/
def sum_adjusts (tr : List FlowEvent) : Nat :=
  tr.foldl (fun a e => match e with | .window_adjust k => a + k | _ => a) 0

/-- A fresh channel starts with the initial remote window and an empty
queue. -/
def flow_init (w : Nat) : FlowChan :=
  { remote_window := w, pending := [] }

/-- Total payload bytes of a list of emitted CHANNEL_DATA messages. -/
def emitted_bytes (l : List (Nat × List Nat)) : Nat :=
  (l.map fun e => e.2.length).sum

/-- Byte credit granted by a single event. -/
def event_credit : FlowEvent → Nat
  | .window_adjust k => k
  | .write_data _ => 0

/-- Modelled from the spec: the padding computation of the packet send
path (section 4.3; the packet module is not in the snapshot): enough
padding to make packet_length plus 4 a multiple of the cipher block
size, never fewer than 4 bytes. -/
def padding_len (block payload_len : Nat) : Nat :=
  if block - (payload_len + 5) % block < 4
  then block - (payload_len + 5) % block + block
  else block - (payload_len + 5) % block

/-- Modelled from the spec: the logical packet record of section 3
with on-wire layout packet_length, padding_length, payload, padding,
mac.  The padding and mac are kept as lengths since only sizes matter
to the framing invariants. -/
structure RawPacket where
  packet_length : Nat
  padding_length : Nat
  payload : List Nat
  mac_len : Nat
deriving DecidableEq, Repr

/-- Modelled from the spec: the packet built by the send path for a
given payload: padding_length byte plus payload plus padding, with the
4-byte length field counting all three. -/
def framed (block mac_len : Nat) (payload : List Nat) : RawPacket :=
  { packet_length := payload.length + padding_len block payload.length + 1
    padding_length := padding_len block payload.length
    payload := payload
    mac_len := mac_len }

/-- Modelled from the spec: the framing step of the packet send path
(section 4.3): payloads beyond the 32768-byte limit are rejected,
anything else is framed with block-aligning padding. -/
def send_packet (block mac_len : Nat) (payload : List Nat) : Option RawPacket :=
  if payload.length > 32768 then none
  else some (framed block mac_len payload)

/-- Total on-wire length of a framed packet: the 4 length bytes, the
packet body, and the MAC. -/
def wire_len (p : RawPacket) : Nat :=
  4 + p.packet_length + p.mac_len

/-- Modelled from the spec: one inbound record as the receive path of
section 4.3 sees it after reading and decrypting: the packet_length
learnt from the first decrypted block, the padding_length byte, the
decrypted body (payload followed by padding), the MAC length, and the
outcome of the MAC verification, abstracted as a flag because the
crypto suite is out of scope here. -/
structure InboundPacket where
  packet_length : Nat
  padding_length : Nat
  body : List Nat
  mac_len : Nat
  mac_ok : Bool
deriving DecidableEq, Repr

/-- Modelled from the spec: the packet receive path of section 4.3:
learn packet_length and reject an on-wire record over 35000 bytes
with OversizePacket, verify the MAC before using the payload
(MacMismatch on failure), reject any length that breaks the packet
invariants of section 3 with MalformedWire — misaligned
packet_length, padding below 4, a body inconsistent with
packet_length, or padding swallowing the whole packet — then strip
the padding; a stripped payload over the 32768-byte limit is likewise
oversize. -/
def recv_packet (block : Nat) (p : InboundPacket) :
    Except SshErrorKind (List Nat) :=
  if 35000 < 4 + p.packet_length + p.mac_len then .error .OversizePacket
  else if p.mac_ok = false then .error .MacMismatch
  else if (p.packet_length + 4) % block ≠ 0 then .error .MalformedWire
  else if p.padding_length < 4 then .error .MalformedWire
  else if p.body.length + 1 ≠ p.packet_length then .error .MalformedWire
  else if p.packet_length ≤ p.padding_length then .error .MalformedWire
  else if 32768 < p.body.length - p.padding_length then .error .OversizePacket
  else .ok (p.body.take (p.body.length - p.padding_length))

/-- Modelled from the spec: wire codec, section 4.1; src/data.rs is
not in the snapshot.  A byte is written modulo 256. -/
def put_u8 (n : Nat) : List Nat := [n % 256]

/-- Modelled from the spec: reading one byte from the cursor. -/
def get_u8 : List Nat → Option (Nat × List Nat)
  | [] => none
  | b :: rest => some (b, rest)

/-- Modelled from the spec: a uint32 is four big-endian bytes. -/
def put_u32 (n : Nat) : List Nat :=
  [n / 16777216 % 256, n / 65536 % 256, n / 256 % 256, n % 256]

/-- Modelled from the spec: reading a big-endian uint32 from the
cursor; fails on underrun. -/
def get_u32 : List Nat → Option (Nat × List Nat)
  | b0 :: b1 :: b2 :: b3 :: rest =>
      some (((b0 * 256 + b1) * 256 + b2) * 256 + b3, rest)
  | _ => none

/-- Modelled from the spec: a string is a uint32 length followed by
the raw bytes (section 4.1). -/
def put_string (s : List Nat) : List Nat := put_u32 s.length ++ s

/-- Modelled from the spec: reading a string; fails on any length that
would read past the buffer. -/
def get_string (l : List Nat) : Option (List Nat × List Nat) :=
  match get_u32 l with
  | some (n, rest) =>
      if n ≤ rest.length then some (rest.take n, rest.drop n) else none
  | none => none

/-- Modelled from the spec: a name-list is a uint32 length followed by
the raw bytes, same wire shape as a string (section 4.1). -/
def put_name_list (s : List Nat) : List Nat := put_string s

/-- Modelled from the spec: reading a name-list. -/
def get_name_list (l : List Nat) : Option (List Nat × List Nat) :=
  get_string l

/-- Modelled from the spec: a boolean is one byte, 0 or 1
(section 4.1). -/
def put_boolean (b : Bool) : List Nat := [if b then 1 else 0]

/-- Modelled from the spec: reading a boolean; any nonzero byte reads
as true. -/
def get_boolean : List Nat → Option (Bool × List Nat)
  | [] => none
  | b :: rest => some (b != 0, rest)

/-- Minimal big-endian byte string of a natural number, with explicit
fuel for structural recursion; the fuel never runs out when it starts
at the number itself. -/
def nat_to_be_aux : Nat → Nat → List Nat
  | 0, _ => []
  | fuel + 1, n => if n = 0 then [] else nat_to_be_aux fuel (n / 256) ++ [n % 256]

/-- Minimal big-endian byte string of a natural number. -/
def nat_to_be (n : Nat) : List Nat := nat_to_be_aux n n

/-- Big-endian value of a byte string. -/
def be_to_nat (l : List Nat) : Nat := l.foldl (fun a b => a * 256 + b) 0

/-- Modelled from the spec: the mpint body of a nonnegative value —
the big-endian magnitude with a leading zero byte iff the high bit of
the leading byte is set (section 4.1). -/
def mpint_mag (n : Nat) : List Nat :=
  if 128 ≤ (nat_to_be n).headD 0 then 0 :: nat_to_be n else nat_to_be n

/-- Modelled from the spec: the body of an mpint over the full signed
domain — a twos-complement big-endian integer (section 4.1).  A
negative value of magnitude m is written as the base-256 digits of
2^(8k) minus m for the least byte count k that can hold it, which
makes the high bit of the leading byte set; a nonnegative value is
its magnitude with a leading zero byte iff the high bit is set. -/
def mpint_body (n : Int) : List Nat :=
  if n < 0 then
    if n.natAbs ≤ 128 * 256 ^ ((nat_to_be n.natAbs).length - 1)
    then nat_to_be (2 ^ (8 * (nat_to_be n.natAbs).length) - n.natAbs)
    else nat_to_be (2 ^ (8 * ((nat_to_be n.natAbs).length + 1)) - n.natAbs)
  else mpint_mag n.toNat

/-- Modelled from the spec: the signed value denoted by an mpint body
— twos-complement, so a leading byte with the high bit set marks a
negative number read as the big-endian value minus 2^(8 len)
(section 4.1). -/
def get_mpint_val (bs : List Nat) : Int :=
  match bs with
  | [] => 0
  | b :: _ =>
      if b < 128 then (be_to_nat bs : Int)
      else (be_to_nat bs : Int) - 2 ^ (8 * bs.length)

/-- Modelled from the spec: an mpint is written as a string holding
its twos-complement big-endian body (section 4.1). -/
def put_mpint (n : Int) : List Nat := put_string (mpint_body n)

/-- Modelled from the spec: reading an mpint back as the
twos-complement value of the string body. -/
def get_mpint (l : List Nat) : Option (Int × List Nat) :=
  match get_string l with
  | some (bs, rest) => some (get_mpint_val bs, rest)
  | none => none

lemma emitted_bytes_append (a b : List (Nat × List Nat)) :
    emitted_bytes (a ++ b) = emitted_bytes a + emitted_bytes b := by
  simp [emitted_bytes]

lemma sum_adjusts_eq (tr : List FlowEvent) :
    sum_adjusts tr = (tr.map event_credit).sum := by
  unfold sum_adjusts
  have key : ∀ (l : List FlowEvent) (a : Nat),
      l.foldl (fun a e => match e with | .window_adjust k => a + k | _ => a) a
        = a + (l.map event_credit).sum := by
    intro l
    induction l with
    | nil => intro a; simp
    | cons e l ih =>
        intro a
        cases e with
        | write_data d => simp [List.foldl_cons, ih, event_credit]
        | window_adjust k =>
            simp [List.foldl_cons, ih, event_credit]
            omega
  simpa using key tr 0

lemma flow_flush_spec (p : List (List Nat)) : ∀ (w : Nat),
    (flow_flush w p).1 + emitted_bytes (flow_flush w p).2.2 = w ∧
    ∀ x ∈ (flow_flush w p).2.2, x.2.length ≤ x.1 := by
  induction p with
  | nil =>
      intro w
      simp [flow_flush, emitted_bytes]
  | cons d rest ih =>
      intro w
      by_cases h : d.length ≤ w
      · have hr := ih (w - d.length)
        simp only [flow_flush, h, if_true, emitted_bytes,
          List.map_cons, List.sum_cons]
        constructor
        · have := hr.1
          simp only [emitted_bytes] at this
          omega
        · intro x hx
          rcases List.mem_cons.mp hx with hx | hx
          · subst hx; exact h
          · exact hr.2 x hx
      · simp [flow_flush, h, emitted_bytes]

lemma flow_step_spec (c : FlowChan) (e : FlowEvent) :
    (flow_step c e).1.remote_window + emitted_bytes (flow_step c e).2
      = c.remote_window + event_credit e ∧
    ∀ x ∈ (flow_step c e).2, x.2.length ≤ x.1 := by
  cases e with
  | write_data d =>
      have h := flow_flush_spec (c.pending ++ [d]) c.remote_window
      simpa [flow_step, event_credit] using h
  | window_adjust k =>
      have h := flow_flush_spec c.pending (c.remote_window + k)
      simpa [flow_step, event_credit] using h

lemma flow_run_spec (tr : List FlowEvent) : ∀ (c : FlowChan),
    (flow_run c tr).1.remote_window + emitted_bytes (flow_run c tr).2
      = c.remote_window + sum_adjusts tr ∧
    ∀ x ∈ (flow_run c tr).2, x.2.length ≤ x.1 := by
  induction tr with
  | nil =>
      intro c
      simp [flow_run, emitted_bytes, sum_adjusts]
  | cons e tr ih =>
      intro c
      have hstep := flow_step_spec c e
      have hrest := ih (flow_step c e).1
      constructor
      · have h1 := hstep.1
        have h2 := hrest.1
        simp only [flow_run, emitted_bytes_append, sum_adjusts_eq,
          List.map_cons, List.sum_cons] at h1 h2 ⊢
        omega
      · intro x hx
        simp only [flow_run, List.mem_append] at hx
        rcases hx with hx | hx
        · exact hstep.2 x hx
        · exact hrest.2 x hx

lemma seq_run_counters (tr : List PacketEvent) : ∀ (s : SeqState),
    s.send_seq < 2 ^ 32 → s.recv_seq < 2 ^ 32 →
    (seq_run s tr).send_seq = (s.send_seq + count_sends tr) % 2 ^ 32 ∧
    (seq_run s tr).recv_seq = (s.recv_seq + count_recvs tr) % 2 ^ 32 := by
  induction tr with
  | nil =>
      intro s hs hr
      constructor
      · simp only [seq_run, List.foldl_nil, count_sends]
        omega
      · simp only [seq_run, List.foldl_nil, count_recvs]
        omega
  | cons e tr ih =>
      intro s hs hr
      have hlt : (0 : Nat) < 2 ^ 32 := by norm_num
      cases e with
      | send_packet =>
          have ih2 := ih { s with send_seq := (s.send_seq + 1) % 2 ^ 32 }
            (Nat.mod_lt _ hlt) hr
          simp only [seq_run, List.foldl_cons, seq_step] at ih2 ⊢
          simp only [count_sends, count_recvs]
          constructor
          · rw [ih2.1]; omega
          · rw [ih2.2]
      | recv_packet =>
          have ih2 := ih { s with recv_seq := (s.recv_seq + 1) % 2 ^ 32 }
            hs (Nat.mod_lt _ hlt)
          simp only [seq_run, List.foldl_cons, seq_step] at ih2 ⊢
          simp only [count_sends, count_recvs]
          constructor
          · rw [ih2.1]
          · rw [ih2.2]; omega
      | newkeys_swap sk rk =>
          have ih2 := ih { s with send_key := sk, recv_key := rk } hs hr
          simp only [seq_run, List.foldl_cons, seq_step] at ih2 ⊢
          simp only [count_sends, count_recvs]
          exact ⟨ih2.1, ih2.2⟩

lemma padding_len_aligns (block L : Nat) (hb : 8 ≤ block) :
    (L + padding_len block L + 5) % block = 0 ∧
    4 ≤ padding_len block L ∧ padding_len block L ≤ 2 * block := by
  have hb0 : 0 < block := by omega
  unfold padding_len
  have hq : block * ((L + 5) / block) + (L + 5) % block = L + 5 :=
    Nat.div_add_mod _ _
  set r := (L + 5) % block with hrdef
  have hr : r < block := Nat.mod_lt _ hb0
  set t := block * ((L + 5) / block) with htdef
  by_cases h4 : block - r < 4
  · simp only [h4, if_true]
    refine ⟨?_, by omega, by omega⟩
    have heq : L + (block - r + block) + 5 = t + block + block := by omega
    rw [heq, Nat.add_mod_right, Nat.add_mod_right, htdef, Nat.mul_mod_right]
  · simp only [h4, if_false]
    refine ⟨?_, by omega, by omega⟩
    have heq : L + (block - r) + 5 = t + block := by omega
    rw [heq, Nat.add_mod_right, htdef, Nat.mul_mod_right]

lemma get_u32_put_u32 (n : Nat) (rest : List Nat) (h : n < 4294967296) :
    get_u32 (put_u32 n ++ rest) = some (n, rest) := by
  simp only [put_u32, List.cons_append, List.nil_append, get_u32,
    Option.some.injEq, Prod.mk.injEq]
  exact ⟨by omega, trivial⟩

lemma get_string_put_string (s rest : List Nat) (h : s.length < 4294967296) :
    get_string (put_string s ++ rest) = some (s, rest) := by
  unfold put_string get_string
  rw [List.append_assoc, get_u32_put_u32 _ _ h]
  have hle : s.length ≤ (s ++ rest).length := by
    simp
  show (if s.length ≤ (s ++ rest).length
    then some ((s ++ rest).take s.length, (s ++ rest).drop s.length)
    else none) = some (s, rest)
  rw [if_pos hle, List.take_left, List.drop_left]

lemma be_to_nat_append_one (l : List Nat) (b : Nat) :
    be_to_nat (l ++ [b]) = be_to_nat l * 256 + b := by
  simp [be_to_nat, List.foldl_append]

lemma be_to_nat_aux (fuel : Nat) : ∀ n : Nat, n ≤ fuel →
    be_to_nat (nat_to_be_aux fuel n) = n := by
  induction fuel with
  | zero =>
      intro n h
      have : n = 0 := by omega
      subst this
      simp [nat_to_be_aux, be_to_nat]
  | succ fuel ih =>
      intro n h
      by_cases h0 : n = 0
      · subst h0
        simp [nat_to_be_aux, be_to_nat]
      · simp only [nat_to_be_aux, h0, if_false]
        rw [be_to_nat_append_one, ih (n / 256) (by omega)]
        omega

lemma be_to_nat_nat_to_be (n : Nat) : be_to_nat (nat_to_be n) = n :=
  be_to_nat_aux n n le_rfl

lemma be_to_nat_zero_cons (l : List Nat) :
    be_to_nat (0 :: l) = be_to_nat l := by
  simp [be_to_nat]

lemma nat_to_be_aux_zero (fuel : Nat) : nat_to_be_aux fuel 0 = [] := by
  cases fuel <;> simp [nat_to_be_aux]

lemma nat_to_be_aux_irrel (fuel1 : Nat) : ∀ (fuel2 n : Nat),
    n ≤ fuel1 → n ≤ fuel2 → nat_to_be_aux fuel1 n = nat_to_be_aux fuel2 n := by
  induction fuel1 with
  | zero =>
      intro fuel2 n h1 _
      have : n = 0 := by omega
      subst this
      rw [nat_to_be_aux_zero, nat_to_be_aux_zero]
  | succ fuel1 ih =>
      intro fuel2 n h1 h2
      by_cases h0 : n = 0
      · subst h0
        rw [nat_to_be_aux_zero, nat_to_be_aux_zero]
      · obtain ⟨f2, rfl⟩ : ∃ f2, fuel2 = f2 + 1 := ⟨fuel2 - 1, by omega⟩
        simp only [nat_to_be_aux, h0, if_false]
        rw [ih f2 (n / 256) (by omega) (by omega)]

lemma nat_to_be_unfold (n : Nat) (h : n ≠ 0) :
    nat_to_be n = nat_to_be (n / 256) ++ [n % 256] := by
  obtain ⟨n1, rfl⟩ : ∃ n1, n = n1 + 1 := ⟨n - 1, by omega⟩
  show nat_to_be_aux (n1 + 1) (n1 + 1) = _
  simp only [nat_to_be_aux, h, if_false]
  rw [nat_to_be_aux_irrel n1 ((n1 + 1) / 256) ((n1 + 1) / 256)
    (by omega) le_rfl]
  rfl

lemma nat_to_be_lt_aux (fuel : Nat) : ∀ n : Nat, n ≤ fuel →
    n < 2 ^ (8 * (nat_to_be_aux fuel n).length) := by
  induction fuel with
  | zero =>
      intro n h
      have : n = 0 := by omega
      subst this
      simp [nat_to_be_aux]
  | succ fuel ih =>
      intro n h
      by_cases h0 : n = 0
      · subst h0
        rw [nat_to_be_aux_zero]
        simp
      · simp only [nat_to_be_aux, h0, if_false, List.length_append,
          List.length_cons, List.length_nil]
        have hih := ih (n / 256) (by omega)
        have hP : 2 ^ (8 * ((nat_to_be_aux fuel (n / 256)).length + 0 + 1))
            = 256 * 2 ^ (8 * (nat_to_be_aux fuel (n / 256)).length) := by
          rw [show 8 * ((nat_to_be_aux fuel (n / 256)).length + 0 + 1)
              = 8 * (nat_to_be_aux fuel (n / 256)).length + 8 by ring,
            pow_add]
          norm_num [Nat.mul_comm]
        rw [hP]
        omega

lemma nat_to_be_lt (n : Nat) : n < 2 ^ (8 * (nat_to_be n).length) :=
  nat_to_be_lt_aux n n le_rfl

lemma nat_to_be_ne_nil (n : Nat) (h : n ≠ 0) : nat_to_be n ≠ [] := by
  intro he
  have := nat_to_be_lt n
  rw [he] at this
  simp at this
  omega

lemma headD_append_left (l r : List Nat) (h : l ≠ []) :
    (l ++ r).headD 0 = l.headD 0 := by
  cases l with
  | nil => exact absurd rfl h
  | cons a t => rfl

lemma nat_to_be_spec (k : Nat) : ∀ v : Nat,
    2 ^ (8 * k) ≤ v → v < 2 ^ (8 * (k + 1)) →
    (nat_to_be v).length = k + 1 ∧
    (nat_to_be v).headD 0 = v / 2 ^ (8 * k) := by
  induction k with
  | zero =>
      intro v h1 h2
      have hv1 : 1 ≤ v := by simpa using h1
      have hv2 : v < 256 := by
        have := h2
        norm_num at this
        exact this
      rw [nat_to_be_unfold v (by omega)]
      have hz : v / 256 = 0 := Nat.div_eq_of_lt hv2
      rw [hz]
      have h0 : nat_to_be 0 = [] := rfl
      rw [h0]
      constructor
      · rfl
      · simp [Nat.mod_eq_of_lt hv2]
  | succ k ih =>
      intro v h1 h2
      have hv0 : v ≠ 0 := by
        have : 1 ≤ 2 ^ (8 * (k + 1)) := Nat.one_le_two_pow
        omega
      have hP1 : 2 ^ (8 * k) * 256 = 2 ^ (8 * (k + 1)) := by
        rw [show 8 * (k + 1) = 8 * k + 8 by ring, pow_add]
        norm_num
      have hP2 : 2 ^ (8 * (k + 1)) * 256 = 2 ^ (8 * (k + 1 + 1)) := by
        rw [show 8 * (k + 1 + 1) = 8 * (k + 1) + 8 by ring, pow_add]
        norm_num
      have hd1 : 2 ^ (8 * k) ≤ v / 256 := by
        rw [Nat.le_div_iff_mul_le (by norm_num : (0 : Nat) < 256), hP1]
        exact h1
      have hd2 : v / 256 < 2 ^ (8 * (k + 1)) := by
        rw [Nat.div_lt_iff_lt_mul (by norm_num : (0 : Nat) < 256), hP2]
        exact h2
      obtain ⟨hlen, hhead⟩ := ih (v / 256) hd1 hd2
      have hne : nat_to_be (v / 256) ≠ [] := by
        intro h
        rw [h] at hlen
        simp only [List.length_nil] at hlen
        omega
      rw [nat_to_be_unfold v hv0]
      constructor
      · rw [List.length_append, hlen]
        rfl
      · rw [headD_append_left _ _ hne, hhead, Nat.div_div_eq_div_mul]
        have hP3 : (256 : Nat) * 2 ^ (8 * k) = 2 ^ (8 * (k + 1)) := by
          rw [show 8 * (k + 1) = 8 * k + 8 by ring, pow_add]
          norm_num [Nat.mul_comm]
        rw [hP3]

lemma get_mpint_val_mag (t : Nat) : get_mpint_val (mpint_mag t) = (t : Int) := by
  by_cases h0 : t = 0
  · subst h0
    have h : nat_to_be 0 = [] := rfl
    simp [mpint_mag, h, get_mpint_val]
  · obtain ⟨b, tl, hbt⟩ := List.exists_cons_of_ne_nil (nat_to_be_ne_nil t h0)
    unfold mpint_mag
    rw [hbt]
    by_cases hb : 128 ≤ (b :: tl).headD 0
    · rw [if_pos hb]
      show (if (0 : Nat) < 128 then (be_to_nat (0 :: b :: tl) : Int)
        else (be_to_nat (0 :: b :: tl) : Int)
          - 2 ^ (8 * (0 :: b :: tl).length)) = (t : Int)
      rw [if_pos (by norm_num), be_to_nat_zero_cons, ← hbt,
        be_to_nat_nat_to_be]
    · rw [if_neg hb]
      have hb2 : b < 128 := by simpa using hb
      show (if b < 128 then (be_to_nat (b :: tl) : Int)
        else (be_to_nat (b :: tl) : Int)
          - 2 ^ (8 * (b :: tl).length)) = (t : Int)
      rw [if_pos hb2, ← hbt, be_to_nat_nat_to_be]

lemma get_mpint_val_twos (m k : Nat) (h1 : 1 ≤ m)
    (h2 : m ≤ 128 * 2 ^ (8 * k)) :
    get_mpint_val (nat_to_be (2 ^ (8 * (k + 1)) - m)) = -(m : Int) := by
  have hTpos : (0 : Nat) < 2 ^ (8 * k) := Nat.pos_pow_of_pos _ (by norm_num)
  have hP : 2 ^ (8 * (k + 1)) = 256 * 2 ^ (8 * k) := by
    rw [show 8 * (k + 1) = 8 * k + 8 by ring, pow_add]
    norm_num [Nat.mul_comm]
  have hb1 : 2 ^ (8 * k) ≤ 2 ^ (8 * (k + 1)) - m := by
    rw [hP]
    omega
  have hb2 : 2 ^ (8 * (k + 1)) - m < 2 ^ (8 * (k + 1)) := by
    have : (0 : Nat) < 2 ^ (8 * (k + 1)) := Nat.pos_pow_of_pos _ (by norm_num)
    omega
  obtain ⟨hlen, hhead⟩ := nat_to_be_spec k (2 ^ (8 * (k + 1)) - m) hb1 hb2
  have hne : nat_to_be (2 ^ (8 * (k + 1)) - m) ≠ [] := by
    intro h
    rw [h] at hlen
    simp only [List.length_nil] at hlen
    omega
  obtain ⟨b, tl, hbt⟩ := List.exists_cons_of_ne_nil hne
  have hhb : b = (2 ^ (8 * (k + 1)) - m) / 2 ^ (8 * k) := by
    rw [← hhead, hbt]
    rfl
  have hb128 : 128 ≤ b := by
    rw [hhb, Nat.le_div_iff_mul_le hTpos]
    rw [hP] at *
    omega
  have hlen2 : (b :: tl).length = k + 1 := by
    rw [← hbt]
    exact hlen
  have hval : be_to_nat (b :: tl) = 2 ^ (8 * (k + 1)) - m := by
    rw [← hbt, be_to_nat_nat_to_be]
  rw [hbt]
  show (if b < 128 then (be_to_nat (b :: tl) : Int)
    else (be_to_nat (b :: tl) : Int)
      - 2 ^ (8 * (b :: tl).length)) = -(m : Int)
  rw [if_neg (by omega), hval, hlen2]
  have hm : m ≤ 2 ^ (8 * (k + 1)) := by
    rw [hP]
    omega
  rw [Nat.cast_sub hm]
  push_cast
  ring

lemma get_mpint_val_body (n : Int) : get_mpint_val (mpint_body n) = n := by
  unfold mpint_body
  by_cases hneg : n < 0
  · rw [if_pos hneg]
    have hm1 : 1 ≤ n.natAbs := by omega
    have hk0pos : 1 ≤ (nat_to_be n.natAbs).length := by
      rcases Nat.eq_zero_or_pos (nat_to_be n.natAbs).length with h | h
      · exact absurd (List.length_eq_zero.mp h)
          (nat_to_be_ne_nil n.natAbs (by omega))
      · exact h
    by_cases hbr : n.natAbs ≤ 128 * 256 ^ ((nat_to_be n.natAbs).length - 1)
    · rw [if_pos hbr]
      have hpw : (256 : Nat) ^ ((nat_to_be n.natAbs).length - 1)
          = 2 ^ (8 * ((nat_to_be n.natAbs).length - 1)) := by
        rw [show (256 : Nat) = 2 ^ 8 by norm_num, ← pow_mul]
      rw [hpw] at hbr
      have h := get_mpint_val_twos n.natAbs ((nat_to_be n.natAbs).length - 1)
        hm1 hbr
      rw [show (nat_to_be n.natAbs).length - 1 + 1
          = (nat_to_be n.natAbs).length by omega] at h
      rw [h]
      omega
    · rw [if_neg hbr]
      have hub := nat_to_be_lt n.natAbs
      have h := get_mpint_val_twos n.natAbs (nat_to_be n.natAbs).length
        hm1 (by omega)
      rw [h]
      omega
  · rw [if_neg hneg, get_mpint_val_mag]
    omega

end SshRs

namespace SshRs

/-- C1: for every ChannelExec e, Deref::deref(e) is exactly the inner
Channel (the first tuple field) and DerefMut::deref_mut(e) is the same
inner Channel, so any Channel operation invoked through the wrapper is
the identical operation on the wrapped Channel. -/
theorem channel_exec_deref_is_inner_channel (e : ChannelExec) :
    e.deref = e.channel ∧ e.deref_mut = e.channel ∧
    (∀ {α : Type} (op : Channel → α), op e.deref = op e.channel) ∧
    (∀ (op : Channel → Channel), op e.deref_mut = op e.channel) := by
  refine ⟨rfl, rfl, ?_, ?_⟩ <;> intro _ <;> try intro op
  all_goals rfl

/-- C2: ssh::create_session() returns a Session whose timeout deadline
is 30 seconds. -/
theorem create_session_timeout_is_30 :
    ssh.create_session.timeout_sec = 30 := by
  rfl

/-- C3: a freshly created session is idle: no transport attached, no
user credentials, and the next-channel-id counter at 0. -/
theorem create_session_is_idle :
    ssh.create_session.client = none ∧
    ssh.create_session.user_info = none ∧
    ssh.create_session.client_channel_no = 0 := by
  exact ⟨rfl, rfl, rfl⟩

/-- C9: Config::disable_default() agrees with Config::default() on the
auth and ver fields and differs only in the algs field, which is the
empty AlgList::default() instead of the populated
AlgList::client_default(). -/
theorem disable_default_differs_only_in_algs :
    Config.disable_default.auth = Config.rust_default.auth ∧
    Config.disable_default.ver = Config.rust_default.ver ∧
    Config.disable_default.algs = AlgList.empty_default ∧
    Config.rust_default.algs = AlgList.client_default ∧
    Config.disable_default.algs ≠ Config.rust_default.algs := by
  refine ⟨rfl, rfl, rfl, rfl, ?_⟩
  decide

/-- C10: ssh::is_enable_log(b) installs the global logger only when b
is true; for b false the call leaves the logging state unchanged. -/
theorem is_enable_log_false_is_noop (st : LogState) :
    ssh.is_enable_log false st = st ∧
    (ssh.is_enable_log true st).logger_installed = true := by
  exact ⟨rfl, rfl⟩

/-- C4: starting from a fresh packet layer, after any trace of events
the send sequence counter equals the number of packets sent modulo 2
to the 32 and the receive counter equals the number received modulo 2
to the 32, each packet incrementing its counter by exactly one with
wraparound; a NEWKEYS key swap changes neither counter, so neither is
ever reset across a rekey. -/
theorem seq_counter_counts_packets (k1 k2 : Nat) (tr : List PacketEvent) :
    (seq_run (seq_init k1 k2) tr).send_seq = count_sends tr % 2 ^ 32 ∧
    (seq_run (seq_init k1 k2) tr).recv_seq = count_recvs tr % 2 ^ 32 ∧
    ∀ (s : SeqState) (sk rk : Nat),
      (seq_step s (.newkeys_swap sk rk)).send_seq = s.send_seq ∧
      (seq_step s (.newkeys_swap sk rk)).recv_seq = s.recv_seq := by
  have h := seq_run_counters tr (seq_init k1 k2) (by norm_num [seq_init])
    (by norm_num [seq_init])
  refine ⟨?_, ?_, ?_⟩
  · simpa [seq_init] using h.1
  · simpa [seq_init] using h.2
  · intro s sk rk
    exact ⟨rfl, rfl⟩

/-- C5: from a fresh channel with initial remote window init_w, after
any trace of writes and window adjusts the remote window stays between
0 and init_w plus the sum of the received WINDOW_ADJUST credits, and
every transmitted CHANNEL_DATA payload was no larger than the remote
window at the moment of transmission, the multiplexer withholding the
rest of the queue until an adjust arrives. -/
theorem channel_window_never_overdrawn (init_w : Nat) (tr : List FlowEvent) :
    0 ≤ (flow_run (flow_init init_w) tr).1.remote_window ∧
    (flow_run (flow_init init_w) tr).1.remote_window ≤ init_w + sum_adjusts tr ∧
    ((flow_run (flow_init init_w) tr).2.all fun x =>
      decide (x.2.length ≤ x.1)) = true := by
  have h := flow_run_spec tr (flow_init init_w)
  refine ⟨Nat.zero_le _, ?_, ?_⟩
  · have h1 := h.1
    have hw : (flow_init init_w).remote_window = init_w := rfl
    rw [hw] at h1
    omega
  · rw [List.all_eq_true]
    intro x hx
    simpa using h.2 x hx

/-- C8: on a session whose transport is attached, close() succeeds,
sends DISCONNECT with code 11 and drops the transport; calling close()
again on the resulting session surfaces SessionDead, not an I O
error. -/
theorem close_twice_surfaces_session_dead (s : Session) (c : Client)
    (h : s.client = some c) :
    s.close = Except.ok ({ s with client := none }, WireMsg.disconnect 11) ∧
    ({ s with client := none } : Session).close
      = Except.error SshErrorKind.SessionDead := by
  constructor
  · unfold Session.close
    rw [h]
  · rfl

/-- C6: every packet framed by the send path, and every inbound
packet accepted by the receive path, satisfies the packet invariants
— packet_length plus 4 is a multiple of the cipher block size,
padding_length is at least 4, the on-wire length is at most 35000
bytes and the payload at most 32768 bytes — and the receive path
rejects any packet whose on-wire length exceeds 35000 bytes with
OversizePacket. -/
theorem packet_layer_bounds (block mac_len : Nat) (payload : List Nat)
    (p q : InboundPacket) (accepted : List Nat)
    (hb1 : 8 ≤ block) (hb2 : block ≤ 32) (hmac : mac_len ≤ 64)
    (hp : payload.length ≤ 32768)
    (hacc : recv_packet block p = Except.ok accepted)
    (hq : 35000 < 4 + q.packet_length + q.mac_len) :
    send_packet block mac_len payload = some (framed block mac_len payload) ∧
    ((framed block mac_len payload).packet_length + 4) % block = 0 ∧
    4 ≤ (framed block mac_len payload).padding_length ∧
    wire_len (framed block mac_len payload) ≤ 35000 ∧
    (framed block mac_len payload).payload.length ≤ 32768 ∧
    (p.packet_length + 4) % block = 0 ∧
    4 ≤ p.padding_length ∧
    4 + p.packet_length + p.mac_len ≤ 35000 ∧
    accepted.length ≤ 32768 ∧
    recv_packet block q = Except.error SshErrorKind.OversizePacket := by
  obtain ⟨halign, hmin, hmax⟩ := padding_len_aligns block payload.length hb1
  unfold recv_packet at hacc
  split_ifs at hacc with h1 h2 h3 h4 h5 h6 h7
  have hacc2 : p.body.take (p.body.length - p.padding_length) = accepted := by
    simpa using hacc
  refine ⟨?_, ?_, ?_, ?_, ?_, ?_, ?_, ?_, ?_, ?_⟩
  · unfold send_packet
    rw [if_neg (by omega)]
  · show (payload.length + padding_len block payload.length + 1 + 4) % block = 0
    have he : payload.length + padding_len block payload.length + 1 + 4
        = payload.length + padding_len block payload.length + 5 := by omega
    rw [he]
    exact halign
  · exact hmin
  · show 4 + (payload.length + padding_len block payload.length + 1)
        + mac_len ≤ 35000
    omega
  · exact hp
  · exact not_not.mp h3
  · omega
  · omega
  · rw [← hacc2, List.length_take]
    omega
  · unfold recv_packet
    rw [if_pos hq]

/-- Witness for C6 at block size 16, MAC length 32, an empty outbound
payload, a well-formed accepted inbound packet of 12 body-plus-length
bytes, and an oversize inbound packet of 35004 on-wire bytes. -/
theorem packet_layer_bounds_witness :
    send_packet 16 32 [] = some (framed 16 32 []) ∧
    ((framed 16 32 []).packet_length + 4) % 16 = 0 ∧
    4 ≤ (framed 16 32 []).padding_length ∧
    wire_len (framed 16 32 []) ≤ 35000 ∧
    (framed 16 32 []).payload.length ≤ 32768 ∧
    ((InboundPacket.mk 12 4 [1, 2, 3, 4, 5, 6, 7, 9, 9, 9, 9] 32
        true).packet_length + 4) % 16 = 0 ∧
    4 ≤ (InboundPacket.mk 12 4 [1, 2, 3, 4, 5, 6, 7, 9, 9, 9, 9] 32
        true).padding_length ∧
    4 + (InboundPacket.mk 12 4 [1, 2, 3, 4, 5, 6, 7, 9, 9, 9, 9] 32
        true).packet_length
      + (InboundPacket.mk 12 4 [1, 2, 3, 4, 5, 6, 7, 9, 9, 9, 9] 32
        true).mac_len ≤ 35000 ∧
    ([1, 2, 3, 4, 5, 6, 7] : List Nat).length ≤ 32768 ∧
    recv_packet 16 (InboundPacket.mk 35000 4 [] 0 true)
      = Except.error SshErrorKind.OversizePacket :=
  packet_layer_bounds 16 32 []
    (InboundPacket.mk 12 4 [1, 2, 3, 4, 5, 6, 7, 9, 9, 9, 9] 32 true)
    (InboundPacket.mk 35000 4 [] 0 true) [1, 2, 3, 4, 5, 6, 7]
    (by decide) (by decide) (by decide) (by decide) (by rfl) (by decide)

/-- C7: for each of the six SSH wire types — byte, uint32, string,
name-list, boolean, and the signed twos-complement mpint — decoding
the encoding of a value of the domain of the type yields the value
back. -/
theorem wire_codec_roundtrip (n8 n32 : Nat) (m : Int) (s nl : List Nat)
    (b : Bool) (h8 : n8 < 256) (h32 : n32 < 4294967296)
    (hs : s.length < 4294967296) (hnl : nl.length < 4294967296)
    (hm : (mpint_body m).length < 4294967296) :
    get_u8 (put_u8 n8) = some (n8, []) ∧
    get_u32 (put_u32 n32) = some (n32, []) ∧
    get_string (put_string s) = some (s, []) ∧
    get_name_list (put_name_list nl) = some (nl, []) ∧
    get_boolean (put_boolean b) = some (b, []) ∧
    get_mpint (put_mpint m) = some (m, []) := by
  refine ⟨?_, ?_, ?_, ?_, ?_, ?_⟩
  · simp [put_u8, get_u8, Nat.mod_eq_of_lt h8]
  · have h := get_u32_put_u32 n32 [] h32
    rwa [List.append_nil] at h
  · have h := get_string_put_string s [] hs
    rwa [List.append_nil] at h
  · have h := get_string_put_string nl [] hnl
    rw [List.append_nil] at h
    exact h
  · cases b <;> simp [put_boolean, get_boolean]
  · have h := get_string_put_string (mpint_body m) [] hm
    rw [List.append_nil] at h
    unfold get_mpint put_mpint
    rw [h]
    show some (get_mpint_val (mpint_body m), ([] : List Nat)) = some (m, [])
    rw [get_mpint_val_body]

/-- Witness for C7 at concrete values of all six wire types, the
mpint one negative so the twos-complement path with its set high bit
is exercised. -/
theorem wire_codec_roundtrip_witness :
    get_u8 (put_u8 7) = some (7, []) ∧
    get_u32 (put_u32 66051) = some (66051, []) ∧
    get_string (put_string [104, 105]) = some ([104, 105], []) ∧
    get_name_list (put_name_list [97, 44, 98]) = some ([97, 44, 98], []) ∧
    get_boolean (put_boolean true) = some (true, []) ∧
    get_mpint (put_mpint (-200)) = some (-200, []) :=
  wire_codec_roundtrip 7 66051 (-200) [104, 105] [97, 44, 98] true
    (by decide) (by decide) (by decide) (by decide) (by decide)

/-- Witness for C8 at a concrete session with an attached
transport. -/
theorem close_twice_surfaces_session_dead_witness :
    Session.close { timeout_sec := 30, user_info := none,
                    client := some { sock := 0 }, client_channel_no := 0 }
      = Except.ok ({ timeout_sec := 30, user_info := none, client := none,
                     client_channel_no := 0 }, WireMsg.disconnect 11) ∧
    Session.close { timeout_sec := 30, user_info := none, client := none,
                    client_channel_no := 0 }
      = Except.error SshErrorKind.SessionDead :=
  close_twice_surfaces_session_dead
    { timeout_sec := 30, user_info := none, client := some { sock := 0 },
      client_channel_no := 0 } { sock := 0 } rfl

end SshRs
